import Mathlib

/-!
# eksctl: reading Fargate profiles, and the stack helper of the unowned-cluster test

A shallow embedding of

* `pkg/actions/fargate/get.go`: `ReadProfile`, `ReadProfiles`, `ListProfiles`,
  `listRequest`, `toFargateProfile`;
* `integration/tests/unowned_cluster/unowned_cluster_test.go`: `createVPCAndRole`;
* the reconciler `Plan` of the design document (section 4.4), which has no source file.

Conventions of the embedding.

* A Go pointer is `Ptr α` (`none` is `nil`); dereferencing `nil` is the panic
  `Panic.nilDereference`.
* A Go slice whose nil-ness a caller can observe is `Slice α` (`none` is the nil slice).
* The remote service is an oracle that may answer a request differently depending on the
  calls made before it: every client operation receives the log of earlier calls, and every
  function that talks to the service returns the extended log next to its result.  On a panic
  the log is kept, so that the calls issued before the panic can still be inspected.
* `logger.Debug` only writes to the log output and is left out.
-/

namespace Eksctl

/-! ## Go values -/

/-- Go pointer: `none` is `nil`. -/
abbrev Ptr (α : Type) := Option α

/-- Go slice with observable nil-ness: `none` is the nil slice. -/
abbrev Slice (α : Type) := Option (List α)

/-- Go map from strings, as an association list; `none` is the nil map. -/
abbrev GoMap (α : Type) := Option (List (String × α))

/-- Elements visited by `for _, x := range s`: none for the nil slice. -/
def Slice.elems {α : Type} : Slice α → List α
  | none => []
  | some xs => xs

/-- Run-time panics of the modelled code. -/
inductive Panic where
  | nilDereference
  | indexOutOfRange
  deriving DecidableEq, Repr

/-- Value of `*p`. -/
def deref {α : Type} : Ptr α → Except Panic α
  | none => .error .nilDereference
  | some a => .ok a

/-! ## Errors (`github.com/pkg/errors`) -/

/-- Go `error` values that occur here: an error produced by a remote client, carrying an
error code and its message text, or a frame added by `errors.Wrapf` (message and cause; the
recorded stack trace is left out). -/
inductive GoError where
  | remote (code : String) (message : String)
  | withMessage (msg : String) (cause : GoError)
  deriving DecidableEq, Repr

namespace GoError

/-- Text of `err.Error()`: a frame prints its message, a colon, and its cause. -/
def Error : GoError → String
  | remote _ message => message
  | withMessage msg cause => msg ++ ": " ++ cause.Error

/-- The error a frame was wrapped around (its `cause` field), if the error is a frame. -/
def Unwrap : GoError → Ptr GoError
  | remote _ _ => none
  | withMessage _ cause => some cause

/-- Result of `errors.Cause(err)`: the innermost error that is not a frame. -/
def Cause : GoError → GoError
  | remote code message => remote code message
  | withMessage _ cause => cause.Cause

end GoError

/-- Result of `errors.Wrapf(err, format, args...)` for a non-nil `err`, where `msg` is the
formatted message. -/
def Wrapf (err : GoError) (msg : String) : GoError :=
  .withMessage msg err

/-! ## Types of the AWS SDK (`service/eks`) and of `api` that `get.go` uses

Only the fields the modelled code reads or writes are kept. -/

/-- Selector as in `eks.FargateProfileSelector`. -/
structure EksFargateProfileSelector where
  Namespace : Ptr String
  Labels : GoMap (Ptr String)
  deriving DecidableEq, Repr

/-- Profile as in `eks.FargateProfile`, the profile as the remote service describes it. -/
structure EksFargateProfile where
  FargateProfileName : Ptr String
  Selectors : Slice (Ptr EksFargateProfileSelector)
  PodExecutionRoleArn : Ptr String
  Subnets : Slice (Ptr String)
  Tags : GoMap (Ptr String)
  Status : Ptr String
  deriving DecidableEq, Repr

/-- Selector as in `api.FargateProfileSelector`. -/
structure FargateProfileSelector where
  Namespace : String
  Labels : GoMap String
  deriving DecidableEq, Repr

/-- Profile as in `api.FargateProfile`, with the fields `toFargateProfile` fills. -/
structure FargateProfile where
  Name : String
  Selectors : Slice FargateProfileSelector
  PodExecutionRoleARN : String
  Subnets : Slice String
  Tags : GoMap String
  Status : String
  deriving DecidableEq, Repr

/-- Request as in `eks.ListFargateProfilesInput`. -/
structure ListFargateProfilesInput where
  ClusterName : Ptr String
  MaxResults : Ptr Int
  NextToken : Ptr String
  deriving DecidableEq, Repr

/-- Response as in `eks.ListFargateProfilesOutput`: one page of names and, when more pages
remain, the token that requests the next one. -/
structure ListFargateProfilesOutput where
  FargateProfileNames : Slice (Ptr String)
  NextToken : Ptr String
  deriving DecidableEq, Repr

/-- Request as in `eks.DescribeFargateProfileInput`. -/
structure DescribeFargateProfileInput where
  ClusterName : Ptr String
  FargateProfileName : Ptr String
  deriving DecidableEq, Repr

/-- Response as in `eks.DescribeFargateProfileOutput`. -/
structure DescribeFargateProfileOutput where
  FargateProfile : Ptr EksFargateProfile
  deriving DecidableEq, Repr

/-- One call issued to the EKS client. -/
inductive Call where
  | list (req : ListFargateProfilesInput)
  | describe (req : DescribeFargateProfileInput)
  deriving DecidableEq, Repr

/-- The EKS client (`m.api`).  Each operation sees the calls made so far and answers with an
error or with a response; the SDK never returns a nil response together with a nil error. -/
structure EKSAPI where
  ListFargateProfiles :
    List Call → ListFargateProfilesInput → Except GoError ListFargateProfilesOutput
  DescribeFargateProfile :
    List Call → DescribeFargateProfileInput → Except GoError DescribeFargateProfileOutput

/-- Functions that `get.go` calls and whose bodies are not among the source files: the rest of
the file (`describeRequest`, `toSelectors`), `pkg/utils/strings` (`ToValuesArray`,
`ToValuesMap`) and the `%q` verb of Go's `fmt` (`quote`).  They are parameters of the
embedding; each is a function that returns on every argument. -/
structure Deps where
  describeRequest : String → String → DescribeFargateProfileInput
  toSelectors : Slice (Ptr EksFargateProfileSelector) → Slice FargateProfileSelector
  ToValuesArray : Slice (Ptr String) → Slice String
  ToValuesMap : GoMap (Ptr String) → GoMap String
  quote : String → String

/-- Modelled from the spec: `strings.EmptyIfNil` of `pkg/utils/strings`, which is not among
the source files; the empty string for a nil pointer, the string pointed to otherwise. -/
def EmptyIfNil : Ptr String → String
  | none => ""
  | some s => s

/-- The receiver of the methods of `get.go`. -/
structure Manager where
  api : EKSAPI
  clusterName : String

/-! ## `get.go` -/

/-- Source `listRequest`: a request that names the cluster and nothing else. -/
def listRequest (clusterName : String) : ListFargateProfilesInput :=
  { ClusterName := some clusterName, MaxResults := none, NextToken := none }

/-- Source `toFargateProfile`.  The fields of the composite literal are evaluated in source
order; `in.F` on a nil `in` and `*p` on a nil `p` panic. -/
def toFargateProfile (D : Deps) (inp : Ptr EksFargateProfile) :
    Except Panic (Ptr FargateProfile) :=
  match inp with
  | none => .error .nilDereference
  | some p =>
    match deref p.FargateProfileName with
    | .error e => .error e
    | .ok name =>
      let selectors := D.toSelectors p.Selectors
      let arn := EmptyIfNil p.PodExecutionRoleArn
      let subnets := D.ToValuesArray p.Subnets
      let tags := D.ToValuesMap p.Tags
      match deref p.Status with
      | .error e => .error e
      | .ok status =>
        .ok (some
          { Name := name
            Selectors := selectors
            PodExecutionRoleARN := arn
            Subnets := subnets
            Tags := tags
            Status := status })

/-- Source `Manager.ReadProfile`: the returned pair `(profile, err)` and the call log. -/
def ReadProfile (D : Deps) (m : Manager) (name : String) (log : List Call) :
    Except Panic (Ptr FargateProfile × Ptr GoError) × List Call :=
  let req := D.describeRequest m.clusterName name
  let log1 := log ++ [Call.describe req]
  match m.api.DescribeFargateProfile log req with
  | .error err =>
    (.ok (none, some (Wrapf err ("failed to get Fargate profile " ++ D.quote name))), log1)
  | .ok out =>
    match toFargateProfile D out.FargateProfile with
    | .error p => (.error p, log1)
    | .ok profile => (.ok (profile, none), log1)

/-- Source `Manager.ListProfiles`: the returned pair `(names, err)` and the call log. -/
def ListProfiles (D : Deps) (m : Manager) (log : List Call) :
    (Slice (Ptr String) × Ptr GoError) × List Call :=
  let req := listRequest m.clusterName
  let log1 := log ++ [Call.list req]
  match m.api.ListFargateProfiles log req with
  | .error err =>
    ((none, some (Wrapf err
        ("failed to get Fargate profile(s) for cluster " ++ D.quote m.clusterName))), log1)
  | .ok out => ((out.FargateProfileNames, none), log1)

/-- The loop of `Manager.ReadProfiles` over the names still to read, with the profiles
appended so far. -/
def ReadProfiles.loop (D : Deps) (m : Manager) :
    List (Ptr String) → List (Ptr FargateProfile) → List Call →
      Except Panic (Slice (Ptr FargateProfile) × Ptr GoError) × List Call
  | [], profiles, log => (.ok (some profiles, none), log)
  | name :: rest, profiles, log =>
    match deref name with
    | .error p => (.error p, log)
    | .ok n =>
      match ReadProfile D m n log with
      | (.error p, log1) => (.error p, log1)
      | (.ok (_, some err), log1) => (.ok (none, some err), log1)
      | (.ok (profile, none), log1) => ReadProfiles.loop D m rest (profiles ++ [profile]) log1

/-- Source `Manager.ReadProfiles`: the returned pair `(profiles, err)` and the call log. -/
def ReadProfiles (D : Deps) (m : Manager) (log : List Call) :
    Except Panic (Slice (Ptr FargateProfile) × Ptr GoError) × List Call :=
  match ListProfiles D m log with
  | ((_, some err), log1) => (.ok (none, some err), log1)
  | ((names, none), log1) => ReadProfiles.loop D m (Slice.elems names) [] log1

/-! ## `unowned_cluster_test.go`: `createVPCAndRole` -/

/-- Request as in `cloudformation.CreateStackInput`. -/
structure CreateStackInput where
  StackName : Ptr String
  TemplateBody : Ptr String
  Capabilities : Slice (Ptr String)
  deriving DecidableEq, Repr

/-- SDK setter `SetTemplateBody`: assigns the field. -/
def CreateStackInput.SetTemplateBody (s : CreateStackInput) (v : String) : CreateStackInput :=
  { s with TemplateBody := some v }

/-- SDK setter `SetCapabilities`: assigns the field. -/
def CreateStackInput.SetCapabilities (s : CreateStackInput) (v : Slice (Ptr String)) :
    CreateStackInput :=
  { s with Capabilities := v }

/-- SDK helper `aws.StringSlice`: a fresh slice of pointers to the given strings. -/
def StringSlice (src : List String) : Slice (Ptr String) :=
  some (src.map some)

/-- SDK constant `cloudformation.CapabilityCapabilityIam`. -/
def CapabilityCapabilityIam : String := "CAPABILITY_IAM"

/-- SDK constant `cloudformation.CapabilityCapabilityNamedIam`. -/
def CapabilityCapabilityNamedIam : String := "CAPABILITY_NAMED_IAM"

/-- SDK constant `cloudformation.StackStatusCreateComplete`. -/
def StackStatusCreateComplete : String := "CREATE_COMPLETE"

/-- Request as in `cloudformation.DescribeStacksInput`. -/
structure DescribeStacksInput where
  StackName : Ptr String
  deriving DecidableEq, Repr

/-- Stack output as in `cloudformation.Output`. -/
structure Output where
  OutputKey : Ptr String
  OutputValue : Ptr String
  deriving DecidableEq, Repr

/-- Stack as in `cloudformation.Stack`. -/
structure Stack where
  StackStatus : Ptr String
  Outputs : List (Ptr Output)
  deriving DecidableEq, Repr

/-- Response as in `cloudformation.DescribeStacksOutput`. -/
structure DescribeStacksOutput where
  Stacks : List (Ptr Stack)
  deriving DecidableEq, Repr

/-- One call issued to the CloudFormation client. -/
inductive CfnCall where
  | createStack (req : CreateStackInput)
  | describeStacks (req : DescribeStacksInput)
  deriving DecidableEq, Repr

/-- The CloudFormation client (`ctl.CloudFormation()`), an oracle over the earlier calls. -/
structure CloudFormationAPI where
  CreateStack : List CfnCall → CreateStackInput → Except GoError Unit
  DescribeStacks : List CfnCall → DescribeStacksInput → Except GoError DescribeStacksOutput

/-- Ways in which the test helper stops without returning. -/
inductive Abort where
  | panic (p : Panic)
  | expectationFailed
  | timedOut
  deriving DecidableEq, Repr

/-- The values `createVPCAndRole` returns, in the order of its `return` statement:
`subnets`, `clusterRoleARN`, `nodeRoleARN`. -/
abbrev StackValues := Slice String × String × String

/-- The request built at the start of `createVPCAndRole`: the literal, then the three setter
calls in source order. -/
def createVPCAndRole.createStackInput (stackName templateBody : String) : CreateStackInput :=
  ((({ StackName := some stackName, TemplateBody := none, Capabilities := none } :
      CreateStackInput).SetTemplateBody templateBody).SetCapabilities
      (StringSlice [CapabilityCapabilityIam])).SetCapabilities
    (StringSlice [CapabilityCapabilityNamedIam])

/-- The `Eventually(...).Should(Equal(StackStatusCreateComplete))` block of `createVPCAndRole`:
the function is polled at most `polls` times (how many polls fit before the deadline depends
on the clock); the response of the poll that saw the awaited status is what
`describeStackOut` holds afterwards. -/
def createVPCAndRole.await (cf : CloudFormationAPI) (stackName : String) :
    Nat → List CfnCall → Except Abort DescribeStacksOutput × List CfnCall
  | 0, log => (.error .timedOut, log)
  | polls + 1, log =>
    let req : DescribeStacksInput := { StackName := some stackName }
    let log1 := log ++ [CfnCall.describeStacks req]
    match cf.DescribeStacks log req with
    | .error _ => (.error .expectationFailed, log1)
    | .ok out =>
      match out.Stacks.head? with
      | none => (.error (.panic .indexOutOfRange), log1)
      | some none => (.error (.panic .nilDereference), log1)
      | some (some stack) =>
        match stack.StackStatus with
        | none => (.error (.panic .nilDereference), log1)
        | some status =>
          if status = StackStatusCreateComplete then (.ok out, log1)
          else createVPCAndRole.await cf stackName polls log1

/-- The pieces of a text between the occurrences of the separator `sep`; `cur` holds, in
reverse, the characters of the piece being read. -/
def Split.pieces (sep : Char) : List Char → List Char → List (List Char)
  | [], cur => [cur.reverse]
  | c :: cs, cur =>
    if c = sep then cur.reverse :: Split.pieces sep cs [] else Split.pieces sep cs (c :: cur)

/-- Go `strings.Split(s, sep)` for a separator of one character: the substrings between the
occurrences of the separator, `[s]` when there is none. -/
def Split (s : String) (sep : Char) : List String :=
  (Split.pieces sep s.toList []).map String.mk

/-- One iteration of the loop over the stack outputs: the `switch` on `*output.OutputKey`. -/
def createVPCAndRole.step (acc : StackValues) (output : Ptr Output) : Except Panic StackValues :=
  match output with
  | none => .error .nilDereference
  | some o =>
    match o.OutputKey with
    | none => .error .nilDereference
    | some key =>
      if key = "ClusterRoleARN" then
        match o.OutputValue with
        | none => .error .nilDereference
        | some v => .ok (acc.1, v, acc.2.2)
      else if key = "NodeRoleARN" then
        match o.OutputValue with
        | none => .error .nilDereference
        | some v => .ok (acc.1, acc.2.1, v)
      else if key = "SubnetIds" then
        match o.OutputValue with
        | none => .error .nilDereference
        | some v => .ok (some (Split v ','), acc.2.1, acc.2.2)
      else .ok acc

/-- The loop `for _, output := range describeStackOut.Stacks[0].Outputs` of
`createVPCAndRole`, from the given values of the three variables. -/
def createVPCAndRole.readOutputs : List (Ptr Output) → StackValues → Except Panic StackValues
  | [], acc => .ok acc
  | output :: rest, acc =>
    match createVPCAndRole.step acc output with
    | .error p => .error p
    | .ok acc1 => createVPCAndRole.readOutputs rest acc1

/-- Source `createVPCAndRole`.  `readFile` is what reading `cf-template.yaml` gives, `polls`
bounds the polls of the `Eventually` block; a failed `Expect` aborts the test. -/
def createVPCAndRole (stackName : String) (cf : CloudFormationAPI)
    (readFile : Except GoError String) (polls : Nat) (log : List CfnCall) :
    Except Abort StackValues × List CfnCall :=
  match readFile with
  | .error _ => (.error .expectationFailed, log)
  | .ok templateBody =>
    let input := createVPCAndRole.createStackInput stackName templateBody
    let log1 := log ++ [CfnCall.createStack input]
    match cf.CreateStack log input with
    | .error _ => (.error .expectationFailed, log1)
    | .ok _ =>
      match createVPCAndRole.await cf stackName polls log1 with
      | (.error a, log2) => (.error a, log2)
      | (.ok describeStackOut, log2) =>
        match describeStackOut.Stacks.head? with
        | none => (.error (.panic .indexOutOfRange), log2)
        | some none => (.error (.panic .nilDereference), log2)
        | some (some stack) =>
          match createVPCAndRole.readOutputs stack.Outputs (none, "", "") with
          | .error p => (.error (.panic p), log2)
          | .ok values => (.ok values, log2)

/-! ## The reconciler of the design document (section 4.4) -/

/-- Modelled from the spec: the desired and the observed resource set of the reconciler, "per
kind, mapping from resource name to spec"; the reconciler has no source file.  A mapping is
an association list in which the first entry of a name is the one that counts. -/
abbrev ResourceSet (σ : Type) := List (String × σ)

/-- Modelled from the spec: the names a resource set maps (the reconciler has no source
file). -/
def ResourceSet.names {σ : Type} (s : ResourceSet σ) : List String :=
  s.map Prod.fst

/-- Modelled from the spec: the spec `s[n]` a resource set gives a name (the reconciler has no
source file). -/
def ResourceSet.get {σ : Type} (s : ResourceSet σ) (n : String) : Option σ :=
  (s.find? (fun e => e.1 = n)).map Prod.snd

/-- Modelled from the spec: a Plan, the names to create, to update and to delete (the
reconciler has no source file). -/
structure Plan where
  toCreate : List String
  toUpdate : List String
  toDelete : List String
  deriving DecidableEq, Repr

/-- Modelled from the spec: `Plan(desiredSet, observedSet)` of section 4.4, which has no
source file: `toCreate = desired \ observed`, `toDelete = observed \ desired`,
`toUpdate = {n ∈ desired ∩ observed : desired[n] ≠ observed[n]}`, where the inequality is
decided by the kind-specific `diff`. -/
def Reconciler.Plan {σ : Type} (diff : σ → σ → Bool) (desired observed : ResourceSet σ) :
    Eksctl.Plan :=
  { toCreate := desired.names.filter (fun n => decide (n ∉ observed.names))
    toDelete := observed.names.filter (fun n => decide (n ∉ desired.names))
    toUpdate := desired.names.filter (fun n =>
      match desired.get n, observed.get n with
      | some d, some o => diff d o
      | _, _ => false) }

/-! ## Sample values

Concrete clients and parameters on which the definitions above are evaluated. -/

/-- A sample choice of the functions of `Deps`: the request names the cluster and the
profile, nil entries convert to the empty string, and `quote` puts the text between double
quotes. -/
def sampleDeps : Deps where
  describeRequest := fun clusterName name =>
    { ClusterName := some clusterName, FargateProfileName := some name }
  toSelectors := fun s => s.map (fun xs => xs.filterMap (fun x =>
    x.map (fun sel => { Namespace := EmptyIfNil sel.Namespace
                        Labels := sel.Labels.map (fun l => l.map (fun e => (e.1, EmptyIfNil e.2))) })))
  ToValuesArray := fun s => s.map (fun xs => xs.map EmptyIfNil)
  ToValuesMap := fun t => t.map (fun xs => xs.map (fun e => (e.1, EmptyIfNil e.2)))
  quote := fun s => "\"" ++ s ++ "\""

/-- A described profile with every field the conversion dereferences present. -/
def sampleProfile (name : String) : EksFargateProfile :=
  { FargateProfileName := some name
    Selectors := some [some { Namespace := some "default", Labels := none }]
    PodExecutionRoleArn := none
    Subnets := some [some "subnet-1", some "subnet-2"]
    Tags := none
    Status := some "ACTIVE" }

/-- A client with the two profiles `fp-default` and `fp-dev`; it lists both on one page and
describes each under its own name; any other name is not found. -/
def sampleAPI : EKSAPI where
  ListFargateProfiles := fun _ _ =>
    .ok { FargateProfileNames := some [some "fp-default", some "fp-dev"], NextToken := none }
  DescribeFargateProfile := fun _ req =>
    if req.FargateProfileName = some "fp-default" then
      .ok { FargateProfile := some (sampleProfile "fp-default") }
    else if req.FargateProfileName = some "fp-dev" then
      .ok { FargateProfile := some (sampleProfile "fp-dev") }
    else .error (.remote "ResourceNotFoundException" "No Fargate Profile found")

/-- The manager of cluster `demo` over `sampleAPI`. -/
def sampleManager : Manager :=
  { api := sampleAPI, clusterName := "demo" }

/-- A client whose describe operation answers every request with the profile `fp-other`. -/
def otherNameAPI : EKSAPI where
  ListFargateProfiles := fun _ _ =>
    .ok { FargateProfileNames := some [some "fp-wanted"], NextToken := none }
  DescribeFargateProfile := fun _ _ => .ok { FargateProfile := some (sampleProfile "fp-other") }

/-- A client that lists the single profile `fp-a` and describes it without a status. -/
def nilStatusAPI : EKSAPI where
  ListFargateProfiles := fun _ _ =>
    .ok { FargateProfileNames := some [some "fp-a"], NextToken := none }
  DescribeFargateProfile := fun _ _ =>
    .ok { FargateProfile := some { sampleProfile "fp-a" with Status := none } }

/-- A client of a cluster without Fargate profiles: the list response carries no name. -/
def emptyAPI : EKSAPI where
  ListFargateProfiles := fun _ _ => .ok { FargateProfileNames := none, NextToken := none }
  DescribeFargateProfile := fun _ _ =>
    .error (.remote "ResourceNotFoundException" "No Fargate Profile found")

/-- The names the sample client lists, each with the response to its describe call. -/
def sampleScript : List (String × DescribeFargateProfileOutput) :=
  [("fp-default", { FargateProfile := some (sampleProfile "fp-default") }),
   ("fp-dev", { FargateProfile := some (sampleProfile "fp-dev") })]

/-- A client that lists `fp-default`, `fp-missing` and `fp-dev` and does not find the second
when asked to describe it. -/
def missingAPI : EKSAPI where
  ListFargateProfiles := fun _ _ =>
    .ok { FargateProfileNames := some [some "fp-default", some "fp-missing", some "fp-dev"]
          NextToken := none }
  DescribeFargateProfile := sampleAPI.DescribeFargateProfile

/-- A client of a cluster that has the profiles `fp-default` and `fp-dev` and whose list
operation answers one name per page: the first page carries a continuation token, the page
requested with a token is the last. -/
def pagedAPI : EKSAPI where
  ListFargateProfiles := fun _ req =>
    match req.NextToken with
    | none => .ok { FargateProfileNames := some [some "fp-default"], NextToken := some "page-2" }
    | some _ => .ok { FargateProfileNames := some [some "fp-dev"], NextToken := none }
  DescribeFargateProfile := sampleAPI.DescribeFargateProfile

/-- The names of all profiles of a cluster as the remote service lists them: the pages
obtained by following the continuation token until a response carries none, at most `fuel`
pages; `none` when a request fails or the pages do not end within `fuel` requests. -/
def listAllPages (api : EKSAPI) (clusterName : String) :
    Nat → Ptr String → List Call → Option (List (Ptr String))
  | 0, _, _ => none
  | fuel + 1, token, log =>
    let req := { listRequest clusterName with NextToken := token }
    match api.ListFargateProfiles log req with
    | .error _ => none
    | .ok out =>
      match out.NextToken with
      | none => some (Slice.elems out.FargateProfileNames)
      | some t =>
        (listAllPages api clusterName fuel (some t) (log ++ [Call.list req])).map
          (fun more => Slice.elems out.FargateProfileNames ++ more)

/-- Whether a stack output is stored under the given key. -/
def Output.hasKey (o : Output) (key : String) : Bool :=
  decide (o.OutputKey = some key)

/-- Stack outputs as a template with a VPC and two roles produces them. -/
def sampleOutputs : List Output :=
  [{ OutputKey := some "SubnetIds", OutputValue := some "subnet-1,subnet-2" },
   { OutputKey := some "VpcId", OutputValue := some "vpc-1" },
   { OutputKey := some "ClusterRoleARN", OutputValue := some "arn:cluster" },
   { OutputKey := some "NodeRoleARN", OutputValue := some "arn:node" }]

/-- A CloudFormation client whose stack is still being created at the first poll and
complete, with the sample outputs in reverse order, from the second poll on. -/
def sampleCloudFormation : CloudFormationAPI where
  CreateStack := fun _ _ => .ok ()
  DescribeStacks := fun log _ =>
    if log.length < 2 then
      .ok { Stacks := [some { StackStatus := some "CREATE_IN_PROGRESS", Outputs := [] }] }
    else
      .ok { Stacks := [some { StackStatus := some StackStatusCreateComplete
                              Outputs := sampleOutputs.reverse.map some }] }

/-- The describe calls `ReadProfiles` issues for the given names, in order. -/
def describeCalls (D : Deps) (clusterName : String) (names : List String) : List Call :=
  names.map (fun n => Call.describe (D.describeRequest clusterName n))

/-! ## `toFargateProfile` and `ReadProfile` -/

/-- The conversion of a described profile that has a name and a status. -/
theorem toFargateProfile_eq (D : Deps) (p : EksFargateProfile) (name status : String)
    (hn : p.FargateProfileName = some name) (hs : p.Status = some status) :
    toFargateProfile D (some p) = .ok (some
      { Name := name
        Selectors := D.toSelectors p.Selectors
        PodExecutionRoleARN := EmptyIfNil p.PodExecutionRoleArn
        Subnets := D.ToValuesArray p.Subnets
        Tags := D.ToValuesMap p.Tags
        Status := status }) := by
  simp [toFargateProfile, deref, hn, hs]

/-- Whatever `toFargateProfile` returns is a non-nil pointer. -/
theorem toFargateProfile_ok_isSome (D : Deps) (inp : Ptr EksFargateProfile)
    (r : Ptr FargateProfile) (h : toFargateProfile D inp = .ok r) : r.isSome = true := by
  unfold toFargateProfile at h
  split at h
  · cases h
  · split at h
    · cases h
    · split at h
      · cases h
      · cases h
        rfl

/-- Whatever `toFargateProfile` returns carries the described name. -/
theorem toFargateProfile_ok_name (D : Deps) (inp : Ptr EksFargateProfile)
    (r : FargateProfile) (h : toFargateProfile D inp = .ok (some r)) :
    ∃ p, inp = some p ∧ p.FargateProfileName = some r.Name := by
  unfold toFargateProfile at h
  split at h
  · cases h
  · rename_i p
    refine ⟨p, rfl, ?_⟩
    cases hn : p.FargateProfileName with
    | none => simp [deref, hn] at h
    | some name =>
      cases hs : p.Status with
      | none => simp [deref, hn, hs] at h
      | some status =>
        simp [deref, hn, hs] at h
        simp [← h]

/-- C3: `ReadProfile` returns a non-nil error exactly when the describe call returns an error.
With an error the returned profile is nil; without one it is non-nil, and a describe response
whose profile has a non-nil name and status does make `ReadProfile` return without error. -/
theorem ReadProfile_error_iff (D : Deps) (m : Manager) (name : String) (log : List Call) :
    ((∃ profile err, (ReadProfile D m name log).1 = .ok (profile, some err)) ↔
      ∃ e, m.api.DescribeFargateProfile log (D.describeRequest m.clusterName name) = .error e) ∧
    (∀ profile err, (ReadProfile D m name log).1 = .ok (profile, some err) → profile = none) ∧
    (∀ profile, (ReadProfile D m name log).1 = .ok (profile, none) → profile.isSome = true) ∧
    (∀ out p n s,
      m.api.DescribeFargateProfile log (D.describeRequest m.clusterName name) = .ok out →
      out.FargateProfile = some p → p.FargateProfileName = some n → p.Status = some s →
      ∃ profile, (ReadProfile D m name log).1 = .ok (some profile, none)) := by
  cases hd : m.api.DescribeFargateProfile log (D.describeRequest m.clusterName name) with
  | error e =>
    refine ⟨⟨fun _ => ⟨e, rfl⟩, fun _ => ⟨none, _, by simp [ReadProfile, hd]; rfl⟩⟩, ?_, ?_, ?_⟩
    · intro profile err h
      simp [ReadProfile, hd] at h
      exact h.1.symm
    · intro profile h
      simp [ReadProfile, hd] at h
    · intro out p n s h
      cases h
  | ok out =>
    cases hc : toFargateProfile D out.FargateProfile with
    | error e =>
      refine ⟨⟨?_, ?_⟩, ?_, ?_, ?_⟩
      · rintro ⟨profile, err, h⟩
        simp [ReadProfile, hd, hc] at h
      · rintro ⟨e, h⟩
        cases h
      · intro profile err h
        simp [ReadProfile, hd, hc] at h
      · intro profile h
        simp [ReadProfile, hd, hc] at h
      · intro out1 p n s h hp hn hs
        cases h
        rw [hp, toFargateProfile_eq D p n s hn hs] at hc
        cases hc
    | ok r =>
      refine ⟨⟨?_, ?_⟩, ?_, ?_, ?_⟩
      · rintro ⟨profile, err, h⟩
        simp [ReadProfile, hd, hc] at h
      · rintro ⟨e, h⟩
        cases h
      · intro profile err h
        simp [ReadProfile, hd, hc] at h
      · intro profile h
        simp [ReadProfile, hd, hc] at h
        subst h
        exact toFargateProfile_ok_isSome D _ _ hc
      · intro out1 p n s h hp hn hs
        obtain ⟨x, rfl⟩ := Option.isSome_iff_exists.mp (toFargateProfile_ok_isSome D _ _ hc)
        exact ⟨x, by simp [ReadProfile, hd, hc]⟩

/-- Witness of C3: an unknown name gives an error and a nil profile, a known one a profile. -/
theorem ReadProfile_error_iff_witness :
    (∃ profile err, (ReadProfile sampleDeps sampleManager "fp-x" []).1 = .ok (profile, some err)) ∧
    (∃ profile, (ReadProfile sampleDeps sampleManager "fp-dev" []).1 = .ok (some profile, none)) :=
  ⟨(ReadProfile_error_iff sampleDeps sampleManager "fp-x" []).1.2 ⟨_, rfl⟩,
   (ReadProfile_error_iff sampleDeps sampleManager "fp-dev" []).2.2.2
     { FargateProfile := some (sampleProfile "fp-dev") } (sampleProfile "fp-dev") "fp-dev"
     "ACTIVE" rfl rfl rfl rfl⟩

/-- C4, as stated, fails: the client answers the request for `fp-wanted` with a successful
response that carries the profile `fp-other`, and `ReadProfile` returns a profile named
`fp-other`. -/
theorem ReadProfile_name_mismatch :
    otherNameAPI.DescribeFargateProfile [] (sampleDeps.describeRequest "demo" "fp-wanted") =
      .ok { FargateProfile := some (sampleProfile "fp-other") } ∧
    ∃ profile,
      (ReadProfile sampleDeps { api := otherNameAPI, clusterName := "demo" } "fp-wanted" []).1 =
        .ok (some profile, none) ∧
      profile.Name = "fp-other" ∧ profile.Name ≠ "fp-wanted" :=
  ⟨rfl, _, rfl, rfl, by decide⟩

/-- C4, amended: after a successful describe response, the `Name` of the profile that
`ReadProfile(name)` returns is the `FargateProfileName` carried by the response, so it is the
provided name exactly when the response carries that name; and a response whose profile has
a non-nil name and status does make `ReadProfile` return such a profile. -/
theorem ReadProfile_name (D : Deps) (m : Manager) (name : String) (log : List Call)
    (out : DescribeFargateProfileOutput)
    (hd : m.api.DescribeFargateProfile log (D.describeRequest m.clusterName name) = .ok out) :
    (∀ profile, (ReadProfile D m name log).1 = .ok (some profile, none) →
      (∃ p, out.FargateProfile = some p ∧ p.FargateProfileName = some profile.Name) ∧
      (profile.Name = name ↔
        ∃ p, out.FargateProfile = some p ∧ p.FargateProfileName = some name)) ∧
    (∀ p n s, out.FargateProfile = some p → p.FargateProfileName = some n →
      p.Status = some s →
      ∃ profile, (ReadProfile D m name log).1 = .ok (some profile, none) ∧ profile.Name = n) := by
  have key : ∀ profile, (ReadProfile D m name log).1 = .ok (some profile, none) →
      ∃ p, out.FargateProfile = some p ∧ p.FargateProfileName = some profile.Name := by
    intro profile h
    cases hc : toFargateProfile D out.FargateProfile with
    | error e => simp [ReadProfile, hd, hc] at h
    | ok r =>
      simp [ReadProfile, hd, hc] at h
      subst h
      exact toFargateProfile_ok_name D _ _ hc
  refine ⟨fun profile h => ⟨key profile h, ?_⟩, ?_⟩
  · obtain ⟨p, hp, hn⟩ := key profile h
    constructor
    · intro he
      exact ⟨p, hp, by rw [hn, he]⟩
    · rintro ⟨q, hq, hqn⟩
      rw [hp] at hq
      cases hq
      rw [hn] at hqn
      exact Option.some.inj hqn
  · intro p n s hp hn hs
    refine ⟨{ Name := n
              Selectors := D.toSelectors p.Selectors
              PodExecutionRoleARN := EmptyIfNil p.PodExecutionRoleArn
              Subnets := D.ToValuesArray p.Subnets
              Tags := D.ToValuesMap p.Tags
              Status := s }, ?_, rfl⟩
    simp [ReadProfile, hd, hp, toFargateProfile_eq D p n s hn hs]

/-- Witness of C4, amended: the profile read under the name `fp-dev` is named `fp-dev`. -/
theorem ReadProfile_name_witness :
    ∃ profile, (ReadProfile sampleDeps sampleManager "fp-dev" []).1 = .ok (some profile, none) ∧
      profile.Name = "fp-dev" :=
  (ReadProfile_name sampleDeps sampleManager "fp-dev" []
    { FargateProfile := some (sampleProfile "fp-dev") } rfl).2
    (sampleProfile "fp-dev") "fp-dev" "ACTIVE" rfl rfl rfl

/-- C5: when the client returns the error `e`, `ReadProfile` and `ListProfiles` return
`errors.Wrapf` of it: `e` itself is the cause held by the added frame, `errors.Cause` (and so
any classification by cause) gives what it gives for `e`, which is `e` itself for an error
of the client, and the message is the context, a colon, and the message of `e`.  The name
appears in the context as `%q` prints it. -/
theorem ReadProfile_ListProfiles_wrap (D : Deps) (m : Manager) (log : List Call) (e : GoError) :
    (∀ name, m.api.DescribeFargateProfile log (D.describeRequest m.clusterName name) = .error e →
      ∃ r, (ReadProfile D m name log).1 = .ok (none, some r) ∧
        r.Unwrap = some e ∧ r.Cause = e.Cause ∧
        (∀ (κ : Type) (classify : GoError → κ), classify r.Cause = classify e.Cause) ∧
        (∀ code message, e = .remote code message → r.Cause = e) ∧
        r.Error = "failed to get Fargate profile " ++ D.quote name ++ ": " ++ e.Error) ∧
    (m.api.ListFargateProfiles log (listRequest m.clusterName) = .error e →
      ∃ r, (ListProfiles D m log).1 = (none, some r) ∧
        r.Unwrap = some e ∧ r.Cause = e.Cause ∧
        (∀ (κ : Type) (classify : GoError → κ), classify r.Cause = classify e.Cause) ∧
        (∀ code message, e = .remote code message → r.Cause = e) ∧
        r.Error = "failed to get Fargate profile(s) for cluster " ++ D.quote m.clusterName ++
          ": " ++ e.Error) := by
  refine ⟨fun name hd => ⟨Wrapf e ("failed to get Fargate profile " ++ D.quote name), ?_, rfl,
      rfl, fun _ _ => rfl, ?_, rfl⟩,
    fun hl => ⟨Wrapf e ("failed to get Fargate profile(s) for cluster " ++ D.quote m.clusterName),
      ?_, rfl, rfl, fun _ _ => rfl, ?_, rfl⟩⟩
  · simp [ReadProfile, hd]
  · rintro code message rfl
    rfl
  · simp [ListProfiles, hl]
  · rintro code message rfl
    rfl

/-- Witness of C5: reading a profile the sample client does not know. -/
theorem ReadProfile_ListProfiles_wrap_witness :
    ∃ r, (ReadProfile sampleDeps sampleManager "fp-x" []).1 = .ok (none, some r) ∧
      r.Cause = .remote "ResourceNotFoundException" "No Fargate Profile found" ∧
      r.Error = "failed to get Fargate profile \"fp-x\": No Fargate Profile found" := by
  obtain ⟨r, h1, _, _, _, h5, h6⟩ :=
    (ReadProfile_ListProfiles_wrap sampleDeps sampleManager []
      (.remote "ResourceNotFoundException" "No Fargate Profile found")).1 "fp-x" rfl
  exact ⟨r, h1, h5 _ _ rfl, h6⟩

/-! ## `ReadProfiles` -/

/-- The log after `ReadProfile` is the earlier log and the one describe call. -/
theorem ReadProfile_log (D : Deps) (m : Manager) (name : String) (log : List Call) :
    (ReadProfile D m name log).2 = log ++ [Call.describe (D.describeRequest m.clusterName name)] := by
  unfold ReadProfile
  simp only
  split
  · rfl
  · split <;> rfl

/-- One iteration of the loop of `ReadProfiles` on a non-nil name. -/
theorem ReadProfiles_loop_cons (D : Deps) (m : Manager) (n : String) (rest : List (Ptr String))
    (acc : List (Ptr FargateProfile)) (log : List Call) :
    ReadProfiles.loop D m (some n :: rest) acc log =
      match (ReadProfile D m n log).1 with
      | .error p => (.error p, log ++ [Call.describe (D.describeRequest m.clusterName n)])
      | .ok (_, some err) =>
        (.ok (none, some err), log ++ [Call.describe (D.describeRequest m.clusterName n)])
      | .ok (profile, none) =>
        ReadProfiles.loop D m rest (acc ++ [profile])
          (log ++ [Call.describe (D.describeRequest m.clusterName n)]) := by
  have hl := ReadProfile_log D m n log
  rw [ReadProfiles.loop]
  simp only [deref]
  rcases hr : ReadProfile D m n log with ⟨r, lg⟩
  rw [hr] at hl
  simp only at hl
  subst hl
  rcases r with p | ⟨profile, _ | err⟩ <;> rfl

/-- The loop of `ReadProfiles` over names that are all described with convertible profiles:
it reads them in order and goes on with the remaining names. -/
theorem ReadProfiles_loop_script (D : Deps) (m : Manager) :
    ∀ (script : List (String × DescribeFargateProfileOutput)) (acc : List (Ptr FargateProfile))
      (log : List Call),
      (∀ i e, script[i]? = some e →
        m.api.DescribeFargateProfile
          (log ++ describeCalls D m.clusterName ((script.take i).map Prod.fst))
          (D.describeRequest m.clusterName e.1) = .ok e.2) →
      (∀ e ∈ script, ∃ p n s, e.2.FargateProfile = some p ∧ p.FargateProfileName = some n ∧
        p.Status = some s) →
      ∃ ps, List.Forall₂ (fun e p => toFargateProfile D e.2.FargateProfile = .ok p) script ps ∧
        ∀ rest, ReadProfiles.loop D m (script.map (fun e => some e.1) ++ rest) acc log =
          ReadProfiles.loop D m rest (acc ++ ps)
            (log ++ describeCalls D m.clusterName (script.map Prod.fst)) := by
  intro script
  induction script with
  | nil =>
    intro acc log _ _
    exact ⟨[], List.Forall₂.nil, fun rest => by simp [describeCalls]⟩
  | cons e script ih =>
    intro acc log hd hc
    have h0 := hd 0 e (by simp)
    simp only [List.take_zero, List.map_nil, describeCalls, List.append_nil] at h0
    obtain ⟨p, n, s, hp, hn, hs⟩ := hc e (List.mem_cons_self _ _)
    obtain ⟨q, hconv⟩ : ∃ q, toFargateProfile D e.2.FargateProfile = .ok q :=
      ⟨_, hp ▸ toFargateProfile_eq D p n s hn hs⟩
    obtain ⟨ps, hps, hrest⟩ := ih (acc ++ [q])
      (log ++ [Call.describe (D.describeRequest m.clusterName e.1)])
      (fun i e1 hi => by
        have := hd (i + 1) e1 (by simpa using hi)
        simpa [describeCalls, List.append_assoc] using this)
      (fun e1 he1 => hc e1 (List.mem_cons_of_mem _ he1))
    refine ⟨q :: ps, List.Forall₂.cons hconv hps, fun rest => ?_⟩
    rw [List.map_cons, List.cons_append, ReadProfiles_loop_cons]
    have hr : (ReadProfile D m e.1 log).1 = .ok (q, none) := by
      simp [ReadProfile, h0, hconv]
    rw [hr]
    simp only
    rw [hrest rest]
    simp [describeCalls, List.append_assoc]

/-- The describe calls of the loop of `ReadProfiles` are those for an initial segment of the
names, in order, one per name. -/
theorem ReadProfiles_loop_log (D : Deps) (m : Manager) :
    ∀ (names : List (Ptr String)) (acc : List (Ptr FargateProfile)) (log : List Call),
      ∃ called k, names.take k = called.map some ∧
        (ReadProfiles.loop D m names acc log).2 = log ++ describeCalls D m.clusterName called := by
  intro names
  induction names with
  | nil =>
    intro acc log
    exact ⟨[], 0, rfl, by simp [ReadProfiles.loop, describeCalls]⟩
  | cons name rest ih =>
    intro acc log
    cases name with
    | none => exact ⟨[], 0, rfl, by simp [ReadProfiles.loop, deref, describeCalls]⟩
    | some n =>
      rw [ReadProfiles_loop_cons]
      rcases (ReadProfile D m n log).1 with p | ⟨profile, _ | err⟩
      · exact ⟨[n], 1, by simp, by simp [describeCalls]⟩
      · obtain ⟨called, k, hk, hlog⟩ := ih (acc ++ [profile])
          (log ++ [Call.describe (D.describeRequest m.clusterName n)])
        refine ⟨n :: called, k + 1, by simp [hk], ?_⟩
        simp only [hlog]
        simp [describeCalls]
      · exact ⟨[n], 1, by simp, by simp [describeCalls]⟩

/-- C1, as stated, fails: the list call succeeds with the one name `fp-a` and the describe
call for it succeeds, with a profile that has no status; `ReadProfiles` then panics on the
nil dereference in `toFargateProfile` and returns neither a list nor an error. -/
theorem ReadProfiles_nil_status :
    nilStatusAPI.ListFargateProfiles [] (listRequest "demo") =
      .ok { FargateProfileNames := some [some "fp-a"], NextToken := none } ∧
    (∃ out, nilStatusAPI.DescribeFargateProfile [Call.list (listRequest "demo")]
      (sampleDeps.describeRequest "demo" "fp-a") = .ok out) ∧
    (ReadProfiles sampleDeps { api := nilStatusAPI, clusterName := "demo" } []).1 =
      .error .nilDereference :=
  ⟨rfl, ⟨_, rfl⟩, rfl⟩

/-- C1, amended: when the list call succeeds with the names `n1..nk`, the describe call for
each `ni` succeeds, and every described profile is non-nil with a non-nil name and status,
`ReadProfiles` returns a nil error and a non-nil list of exactly `k` profiles, the `i`-th being
`toFargateProfile` of the profile described for `ni`; it has issued the list call and then
the `k` describe calls in the order of the names. -/
theorem ReadProfiles_ok (D : Deps) (m : Manager) (log : List Call)
    (out : ListFargateProfilesOutput) (script : List (String × DescribeFargateProfileOutput))
    (hl : m.api.ListFargateProfiles log (listRequest m.clusterName) = .ok out)
    (hn : Slice.elems out.FargateProfileNames = script.map (fun e => some e.1))
    (hd : ∀ i e, script[i]? = some e →
      m.api.DescribeFargateProfile
        (log ++ Call.list (listRequest m.clusterName) ::
          describeCalls D m.clusterName ((script.take i).map Prod.fst))
        (D.describeRequest m.clusterName e.1) = .ok e.2)
    (hc : ∀ e ∈ script, ∃ p n s, e.2.FargateProfile = some p ∧ p.FargateProfileName = some n ∧
      p.Status = some s) :
    ∃ ps, ReadProfiles D m log =
        (.ok (some ps, none),
          log ++ Call.list (listRequest m.clusterName) ::
            describeCalls D m.clusterName (script.map Prod.fst)) ∧
      ps.length = script.length ∧
      List.Forall₂ (fun e p => toFargateProfile D e.2.FargateProfile = .ok p) script ps := by
  obtain ⟨ps, hps, hrest⟩ := ReadProfiles_loop_script D m script []
    (log ++ [Call.list (listRequest m.clusterName)])
    (fun i e hi => by simpa [List.append_assoc] using hd i e hi) hc
  refine ⟨ps, ?_, hps.length_eq.symm, hps⟩
  have h := hrest []
  simp only [List.append_nil, List.nil_append] at h
  simp only [ReadProfiles, ListProfiles, hl, hn, h]
  simp [ReadProfiles.loop, List.append_assoc]

/-- Witness of C1, amended: the two profiles of the sample client, and a cluster with no
profile, for which the result is the empty list and no error. -/
theorem ReadProfiles_ok_witness :
    (∃ ps, ReadProfiles sampleDeps sampleManager [] =
        (.ok (some ps, none),
          [Call.list (listRequest "demo"),
           Call.describe (sampleDeps.describeRequest "demo" "fp-default"),
           Call.describe (sampleDeps.describeRequest "demo" "fp-dev")]) ∧
      ps.length = 2 ∧
      List.Forall₂ (fun e p => toFargateProfile sampleDeps e.2.FargateProfile = .ok p)
        sampleScript ps) ∧
    (ReadProfiles sampleDeps { api := emptyAPI, clusterName := "demo" } []).1 =
      .ok (some [], none) :=
  ⟨ReadProfiles_ok sampleDeps sampleManager []
      { FargateProfileNames := some [some "fp-default", some "fp-dev"], NextToken := none }
      sampleScript
      rfl rfl
      (fun i e hi => by
        match i, hi with
        | 0, hi => cases hi; rfl
        | 1, hi => cases hi; rfl
        | _ + 2, hi => simp [sampleScript] at hi)
      (fun e he => by
        simp only [sampleScript, List.mem_cons, List.mem_singleton, List.not_mem_nil,
          or_false] at he
        rcases he with rfl | rfl
        · exact ⟨_, _, _, rfl, rfl, rfl⟩
        · exact ⟨_, _, _, rfl, rfl, rfl⟩),
   rfl⟩

/-- C8: `ReadProfiles` stops at the first failure and returns no partial result.  A failing
list call gives a nil list with the error of `ListProfiles` and no describe call.  When the
names before the `j`-th were read and the describe call for the `j`-th fails, the result is a
nil list with the error of that `ReadProfile`, and the describe calls issued are those for the
first `j` names.  On every run the calls are one list call followed by the describe calls for
an initial segment of the listed names, in order, one per name. -/
theorem ReadProfiles_fail_fast (D : Deps) (m : Manager) (log : List Call) :
    (∀ e, m.api.ListFargateProfiles log (listRequest m.clusterName) = .error e →
      ReadProfiles D m log =
        (.ok (none, some (Wrapf e
          ("failed to get Fargate profile(s) for cluster " ++ D.quote m.clusterName))),
          log ++ [Call.list (listRequest m.clusterName)])) ∧
    (∀ out (script : List (String × DescribeFargateProfileOutput)) nj rest e,
      m.api.ListFargateProfiles log (listRequest m.clusterName) = .ok out →
      Slice.elems out.FargateProfileNames = script.map (fun e => some e.1) ++ some nj :: rest →
      (∀ i e, script[i]? = some e →
        m.api.DescribeFargateProfile
          (log ++ Call.list (listRequest m.clusterName) ::
            describeCalls D m.clusterName ((script.take i).map Prod.fst))
          (D.describeRequest m.clusterName e.1) = .ok e.2) →
      (∀ e ∈ script, ∃ p n s, e.2.FargateProfile = some p ∧ p.FargateProfileName = some n ∧
        p.Status = some s) →
      m.api.DescribeFargateProfile
        (log ++ Call.list (listRequest m.clusterName) ::
          describeCalls D m.clusterName (script.map Prod.fst))
        (D.describeRequest m.clusterName nj) = .error e →
      ReadProfiles D m log =
        (.ok (none, some (Wrapf e ("failed to get Fargate profile " ++ D.quote nj))),
          log ++ Call.list (listRequest m.clusterName) ::
            describeCalls D m.clusterName (script.map Prod.fst ++ [nj]))) ∧
    (∃ called, (ReadProfiles D m log).2 =
        log ++ Call.list (listRequest m.clusterName) :: describeCalls D m.clusterName called ∧
      match m.api.ListFargateProfiles log (listRequest m.clusterName) with
      | .error _ => called = []
      | .ok out => ∃ k, (Slice.elems out.FargateProfileNames).take k = called.map some) := by
  refine ⟨?_, ?_, ?_⟩
  · intro e hl
    simp [ReadProfiles, ListProfiles, hl]
  · intro out script nj rest e hl hn hd hc he
    obtain ⟨ps, _, hrest⟩ := ReadProfiles_loop_script D m script []
      (log ++ [Call.list (listRequest m.clusterName)])
      (fun i e hi => by simpa [List.append_assoc] using hd i e hi) hc
    have h := hrest (some nj :: rest)
    have hr : (ReadProfile D m nj (log ++ [Call.list (listRequest m.clusterName)] ++
        describeCalls D m.clusterName (script.map Prod.fst))).1 =
        .ok (none, some (Wrapf e ("failed to get Fargate profile " ++ D.quote nj))) := by
      have he1 : m.api.DescribeFargateProfile
          (log ++ [Call.list (listRequest m.clusterName)] ++
            describeCalls D m.clusterName (script.map Prod.fst))
          (D.describeRequest m.clusterName nj) = .error e := by
        simpa [List.append_assoc] using he
      unfold ReadProfile
      simp only [he1]
    simp only [ReadProfiles, ListProfiles, hl, hn, h]
    rw [ReadProfiles_loop_cons, hr]
    simp [describeCalls, List.append_assoc]
  · cases hl : m.api.ListFargateProfiles log (listRequest m.clusterName) with
    | error e => exact ⟨[], by simp [ReadProfiles, ListProfiles, hl, describeCalls], rfl⟩
    | ok out =>
      obtain ⟨called, k, hk, hlog⟩ := ReadProfiles_loop_log D m
        (Slice.elems out.FargateProfileNames) [] (log ++ [Call.list (listRequest m.clusterName)])
      refine ⟨called, ?_, k, hk⟩
      simp only [ReadProfiles, ListProfiles, hl, hlog]
      simp [List.append_assoc]

/-- Witness of C8: the second of three listed names is not found; the result is a nil list
with the error of that read, and no describe call is issued for the third name. -/
theorem ReadProfiles_fail_fast_witness :
    ReadProfiles sampleDeps { api := missingAPI, clusterName := "demo" } [] =
      (.ok (none, some (Wrapf (.remote "ResourceNotFoundException" "No Fargate Profile found")
        ("failed to get Fargate profile " ++ sampleDeps.quote "fp-missing"))),
        [Call.list (listRequest "demo"),
         Call.describe (sampleDeps.describeRequest "demo" "fp-default"),
         Call.describe (sampleDeps.describeRequest "demo" "fp-missing")]) :=
  (ReadProfiles_fail_fast sampleDeps { api := missingAPI, clusterName := "demo" } []).2.1
    { FargateProfileNames := some [some "fp-default", some "fp-missing", some "fp-dev"]
      NextToken := none }
    [("fp-default", { FargateProfile := some (sampleProfile "fp-default") })]
    "fp-missing" [some "fp-dev"]
    (.remote "ResourceNotFoundException" "No Fargate Profile found") rfl rfl
    (fun i e hi => by
      match i, hi with
      | 0, hi => cases hi; rfl
      | _ + 1, hi => simp at hi)
    (fun e he => by
      simp only [List.mem_singleton] at he
      subst he
      exact ⟨_, _, _, rfl, rfl, rfl⟩)
    rfl

/-! ## `ListProfiles` -/

/-- What `ListProfiles` does on a successful response: it returns the names of that one
response, after a single list call whose request carries no continuation token. -/
theorem ListProfiles_ok (D : Deps) (m : Manager) (log : List Call)
    (out : ListFargateProfilesOutput)
    (hl : m.api.ListFargateProfiles log (listRequest m.clusterName) = .ok out) :
    ListProfiles D m log =
      ((out.FargateProfileNames, none), log ++ [Call.list (listRequest m.clusterName)]) ∧
    (listRequest m.clusterName).NextToken = none := by
  exact ⟨by simp [ListProfiles, hl], rfl⟩

/-- C2 on a cluster whose profiles are listed in two pages: the cluster has `fp-default` and
`fp-dev`, the list call succeeds, and `ListProfiles` returns the first page only, `fp-default`,
after a single list call. -/
theorem ListProfiles_first_page_only :
    listAllPages pagedAPI "demo" 2 none [] = some [some "fp-default", some "fp-dev"] ∧
    ListProfiles sampleDeps { api := pagedAPI, clusterName := "demo" } [] =
      ((some [some "fp-default"], none), [Call.list (listRequest "demo")]) ∧
    (some [some "fp-default"] : Slice (Ptr String)) ≠ some [some "fp-default", some "fp-dev"] :=
  ⟨rfl, rfl, by decide⟩

/-- What `ReadProfiles` returns on the same cluster: it describes the names of the first page
only, so it returns the profile `fp-default` and issues no describe call for `fp-dev`. -/
theorem ReadProfiles_first_page_only :
    ReadProfiles sampleDeps { api := pagedAPI, clusterName := "demo" } [] =
      (.ok (some [some
          { Name := "fp-default"
            Selectors := some [{ Namespace := "default", Labels := none }]
            PodExecutionRoleARN := ""
            Subnets := some ["subnet-1", "subnet-2"]
            Tags := none
            Status := "ACTIVE" }], none),
        [Call.list (listRequest "demo"),
         Call.describe (sampleDeps.describeRequest "demo" "fp-default")]) := by
  rfl

/-! ## `createVPCAndRole`: reading the stack outputs -/

/-- One iteration of the output loop on an output with a key and a value. -/
theorem createVPCAndRole_step_some (acc : StackValues) (o : Output) (key v : String)
    (hk : o.OutputKey = some key) (hv : o.OutputValue = some v) :
    createVPCAndRole.step acc (some o) =
      .ok (if key = "SubnetIds" then some (Split v ',') else acc.1,
           if key = "ClusterRoleARN" then v else acc.2.1,
           if key = "NodeRoleARN" then v else acc.2.2) := by
  simp only [createVPCAndRole.step, hk, hv]
  by_cases h1 : key = "ClusterRoleARN"
  · subst h1
    simp
  · by_cases h2 : key = "NodeRoleARN"
    · subst h2
      simp
    · by_cases h3 : key = "SubnetIds"
      · subst h3
        simp
      · simp [h1, h2, h3]

/-- The output loop in closed form, for outputs that all have a key and a value: each of the
three variables ends with the value of the last output stored under its key, or with its
initial value when there is none. -/
theorem createVPCAndRole_readOutputs_eq :
    ∀ (outs : List Output), (∀ o ∈ outs, o.OutputKey ≠ none ∧ o.OutputValue ≠ none) →
      ∀ acc : StackValues,
        createVPCAndRole.readOutputs (outs.map some) acc =
          .ok ((outs.filter (fun o => o.hasKey "SubnetIds")).foldl
                (fun _ o => some (Split (o.OutputValue.getD "") ',')) acc.1,
               (outs.filter (fun o => o.hasKey "ClusterRoleARN")).foldl
                (fun _ o => o.OutputValue.getD "") acc.2.1,
               (outs.filter (fun o => o.hasKey "NodeRoleARN")).foldl
                (fun _ o => o.OutputValue.getD "") acc.2.2) := by
  intro outs
  induction outs with
  | nil =>
    intro _ acc
    simp [createVPCAndRole.readOutputs]
  | cons o outs ih =>
    intro h acc
    obtain ⟨hk, hv⟩ := h o (List.mem_cons_self _ _)
    obtain ⟨key, hk⟩ := Option.ne_none_iff_exists'.mp hk
    obtain ⟨v, hv⟩ := Option.ne_none_iff_exists'.mp hv
    rw [List.map_cons, createVPCAndRole.readOutputs, createVPCAndRole_step_some acc o key v hk hv]
    simp only
    rw [ih (fun o1 h1 => h o1 (List.mem_cons_of_mem _ h1))]
    simp only [List.filter_cons, Output.hasKey, hk, hv, Option.some.injEq, Option.getD_some]
    by_cases h1 : key = "ClusterRoleARN" <;> by_cases h2 : key = "NodeRoleARN" <;>
      by_cases h3 : key = "SubnetIds" <;> simp [h1, h2, h3, hv]

/-- Lists that are permutations of each other and have at most one element are equal. -/
theorem perm_eq_of_length_le_one {α : Type} {l l' : List α} (h : l.Perm l')
    (hlen : l.length ≤ 1) : l = l' := by
  match l, hlen with
  | [], _ => exact (List.nil_perm.mp h).symm
  | [a], _ => exact List.singleton_perm.mp h

/-- A list with at most one element that has the element `a` is `[a]`. -/
theorem eq_singleton_of_mem_of_length_le_one {α : Type} {l : List α} {a : α} (h : a ∈ l)
    (hlen : l.length ≤ 1) : l = [a] := by
  match l, hlen, h with
  | [b], _, h => rw [List.mem_singleton.mp h]

/-- Filtering by one of the three keys after filtering by all three is filtering by the one. -/
theorem filter_key_of_filter_keys (outs : List Output) (key : String)
    (hkey : key = "ClusterRoleARN" ∨ key = "NodeRoleARN" ∨ key = "SubnetIds") :
    (outs.filter (fun o => o.hasKey "ClusterRoleARN" || o.hasKey "NodeRoleARN" ||
      o.hasKey "SubnetIds")).filter (fun o => o.hasKey key) =
    outs.filter (fun o => o.hasKey key) := by
  rw [List.filter_filter]
  apply List.filter_congr
  intro o _
  rcases hkey with rfl | rfl | rfl <;> cases o.hasKey _ <;> simp

/-- C6: for stack outputs that all have a key and a value and in which each of the keys
`ClusterRoleARN`, `NodeRoleARN` and `SubnetIds` occurs at most once, the output loop of
`createVPCAndRole` ends without a panic and with the same three values for every
permutation of the outputs: `subnets` is the value under `SubnetIds` split at the commas,
the two roles are the values under their keys, a variable whose key does not occur keeps
its zero value, and the outputs under any other key can be dropped without changing the
result. -/
theorem createVPCAndRole_outputs_order (outs outs' : List Output) (hperm : outs.Perm outs')
    (hk : ∀ o ∈ outs, o.OutputKey ≠ none ∧ o.OutputValue ≠ none)
    (hc : outs.countP (fun o => o.hasKey "ClusterRoleARN") ≤ 1)
    (hn : outs.countP (fun o => o.hasKey "NodeRoleARN") ≤ 1)
    (hs : outs.countP (fun o => o.hasKey "SubnetIds") ≤ 1) :
    ∃ values : StackValues,
      createVPCAndRole.readOutputs (outs.map some) (none, "", "") = .ok values ∧
      createVPCAndRole.readOutputs (outs'.map some) (none, "", "") = .ok values ∧
      (∀ v, { OutputKey := some "SubnetIds", OutputValue := some v } ∈ outs →
        values.1 = some (Split v ',')) ∧
      (∀ v, { OutputKey := some "ClusterRoleARN", OutputValue := some v } ∈ outs →
        values.2.1 = v) ∧
      (∀ v, { OutputKey := some "NodeRoleARN", OutputValue := some v } ∈ outs →
        values.2.2 = v) ∧
      ((∀ o ∈ outs, o.OutputKey ≠ some "SubnetIds") → values.1 = none) ∧
      ((∀ o ∈ outs, o.OutputKey ≠ some "ClusterRoleARN") → values.2.1 = "") ∧
      ((∀ o ∈ outs, o.OutputKey ≠ some "NodeRoleARN") → values.2.2 = "") ∧
      createVPCAndRole.readOutputs
        ((outs.filter (fun o => o.hasKey "ClusterRoleARN" || o.hasKey "NodeRoleARN" ||
          o.hasKey "SubnetIds")).map some) (none, "", "") = .ok values := by
  have hk' : ∀ o ∈ outs', o.OutputKey ≠ none ∧ o.OutputValue ≠ none :=
    fun o ho => hk o (hperm.mem_iff.mpr ho)
  have hlen : ∀ key, outs.countP (fun o => o.hasKey key) ≤ 1 →
      (outs.filter (fun o => o.hasKey key)).length ≤ 1 := by
    intro key h
    rwa [← List.countP_eq_length_filter]
  have heq : ∀ key, outs.countP (fun o => o.hasKey key) ≤ 1 →
      outs'.filter (fun o => o.hasKey key) = outs.filter (fun o => o.hasKey key) :=
    fun key h => (perm_eq_of_length_le_one (hperm.filter _) (hlen key h)).symm
  have hone : ∀ key v, outs.countP (fun o => o.hasKey key) ≤ 1 →
      ({ OutputKey := some key, OutputValue := some v } : Output) ∈ outs →
      outs.filter (fun o => o.hasKey key) = [{ OutputKey := some key, OutputValue := some v }] :=
    fun key v h hm => eq_singleton_of_mem_of_length_le_one
      (List.mem_filter.mpr ⟨hm, by simp [Output.hasKey]⟩) (hlen key h)
  have hnone : ∀ key, (∀ o ∈ outs, o.OutputKey ≠ some key) →
      outs.filter (fun o => o.hasKey key) = [] := by
    intro key h
    rw [List.filter_eq_nil_iff]
    intro o ho
    simpa [Output.hasKey] using h o ho
  refine ⟨_, createVPCAndRole_readOutputs_eq outs hk _, ?_, ?_, ?_, ?_, ?_, ?_, ?_, ?_⟩
  · rw [createVPCAndRole_readOutputs_eq outs' hk', heq _ hc, heq _ hn, heq _ hs]
  · intro v hv
    simp [hone _ v hs hv]
  · intro v hv
    simp [hone _ v hc hv]
  · intro v hv
    simp [hone _ v hn hv]
  · intro h
    simp [hnone _ h]
  · intro h
    simp [hnone _ h]
  · intro h
    simp [hnone _ h]
  · rw [createVPCAndRole_readOutputs_eq _ (fun o ho => hk o (List.mem_of_mem_filter ho)),
      filter_key_of_filter_keys outs _ (Or.inl rfl),
      filter_key_of_filter_keys outs _ (Or.inr (Or.inl rfl)),
      filter_key_of_filter_keys outs _ (Or.inr (Or.inr rfl))]

/-- Witness of C6: the sample outputs and their reversal give the same three values. -/
theorem createVPCAndRole_outputs_order_witness :
    ∃ values : StackValues,
      createVPCAndRole.readOutputs (sampleOutputs.map some) (none, "", "") = .ok values ∧
      createVPCAndRole.readOutputs (sampleOutputs.reverse.map some) (none, "", "") =
        .ok values ∧
      values = (some ["subnet-1", "subnet-2"], "arn:cluster", "arn:node") := by
  obtain ⟨values, h1, h2, h3, h4, h5, _⟩ :=
    createVPCAndRole_outputs_order sampleOutputs sampleOutputs.reverse
      (List.reverse_perm sampleOutputs).symm (by decide) (by decide) (by decide) (by decide)
  refine ⟨values, h1, h2, ?_⟩
  have e1 := h3 "subnet-1,subnet-2" (by decide)
  have e2 := h4 "arn:cluster" (by decide)
  have e3 := h5 "arn:node" (by decide)
  rw [Prod.ext_iff, Prod.ext_iff]
  exact ⟨e1.trans (by decide), e2, e3⟩

/-! ## `createVPCAndRole`: the submitted request -/

/-- The polling block of `createVPCAndRole` only adds `DescribeStacks` calls to the log. -/
theorem createVPCAndRole_await_log (cf : CloudFormationAPI) (stackName : String) :
    ∀ (polls : Nat) (log : List CfnCall),
      ∃ calls, (createVPCAndRole.await cf stackName polls log).2 = log ++ calls ∧
        ∀ c ∈ calls, ∃ req, c = CfnCall.describeStacks req := by
  intro polls
  induction polls with
  | zero =>
    intro log
    exact ⟨[], by simp [createVPCAndRole.await], by simp⟩
  | succ polls ih =>
    intro log
    have one : ∃ calls, log ++ [CfnCall.describeStacks { StackName := some stackName }] =
        log ++ calls ∧ ∀ c ∈ calls, ∃ req, c = CfnCall.describeStacks req :=
      ⟨[_], rfl, by simp⟩
    rw [createVPCAndRole.await]
    split
    · exact one
    · split
      · exact one
      · exact one
      · split
        · exact one
        · split
          · exact one
          · obtain ⟨calls, hcalls, hall⟩ :=
              ih (log ++ [CfnCall.describeStacks { StackName := some stackName }])
            refine ⟨CfnCall.describeStacks { StackName := some stackName } :: calls, ?_, ?_⟩
            · rw [hcalls]
              simp
            · intro c hc
              rcases List.mem_cons.mp hc with rfl | hc
              · exact ⟨_, rfl⟩
              · exact hall c hc

/-- C10: the second `SetCapabilities` call replaces what the first one set.  After the first
call the request carries `[CAPABILITY_IAM]`; the request `createVPCAndRole` builds carries
exactly `[CAPABILITY_NAMED_IAM]`, without `CAPABILITY_IAM`; and on every run that read the
template, the one `CreateStack` call issued is the first call and submits that request. -/
theorem createVPCAndRole_capabilities (stackName templateBody : String)
    (cf : CloudFormationAPI) (polls : Nat) (log : List CfnCall) :
    ((({ StackName := some stackName, TemplateBody := none, Capabilities := none } :
        CreateStackInput).SetTemplateBody templateBody).SetCapabilities
        (StringSlice [CapabilityCapabilityIam])).Capabilities = some [some "CAPABILITY_IAM"] ∧
    createVPCAndRole.createStackInput stackName templateBody =
      { StackName := some stackName
        TemplateBody := some templateBody
        Capabilities := some [some "CAPABILITY_NAMED_IAM"] } ∧
    some "CAPABILITY_IAM" ∉
      Slice.elems (createVPCAndRole.createStackInput stackName templateBody).Capabilities ∧
    ∃ calls, (createVPCAndRole stackName cf (.ok templateBody) polls log).2 =
        log ++ CfnCall.createStack
          { StackName := some stackName
            TemplateBody := some templateBody
            Capabilities := some [some "CAPABILITY_NAMED_IAM"] } :: calls ∧
      ∀ c ∈ calls, ∃ req, c = CfnCall.describeStacks req := by
  refine ⟨rfl, rfl, by simp [createVPCAndRole.createStackInput, CreateStackInput.SetCapabilities,
    StringSlice, Slice.elems, CapabilityCapabilityNamedIam], ?_⟩
  have hin : createVPCAndRole.createStackInput stackName templateBody =
      { StackName := some stackName
        TemplateBody := some templateBody
        Capabilities := some [some "CAPABILITY_NAMED_IAM"] } := rfl
  rw [createVPCAndRole]
  simp only [hin]
  split
  · exact ⟨[], by simp, by simp⟩
  · obtain ⟨calls, hcalls, hall⟩ := createVPCAndRole_await_log cf stackName polls
      (log ++ [CfnCall.createStack
        { StackName := some stackName
          TemplateBody := some templateBody
          Capabilities := some [some "CAPABILITY_NAMED_IAM"] }])
    refine ⟨calls, ?_, hall⟩
    split
    · rename_i h
      rw [h] at hcalls
      simpa using hcalls
    · rename_i h
      rw [h] at hcalls
      simp only at hcalls
      subst hcalls
      split
      · simp
      · simp
      · split <;> simp

/-- What `createVPCAndRole` returns once the stack is seen complete: the values the output
loop reads from the outputs of the first stack of the last response. -/
theorem createVPCAndRole_result (stackName templateBody : String) (cf : CloudFormationAPI)
    (polls : Nat) (log log2 : List CfnCall) (out : DescribeStacksOutput) (stack : Stack)
    (hc : cf.CreateStack log (createVPCAndRole.createStackInput stackName templateBody) = .ok ())
    (ha : createVPCAndRole.await cf stackName polls
      (log ++ [CfnCall.createStack (createVPCAndRole.createStackInput stackName templateBody)]) =
        (.ok out, log2))
    (hs : out.Stacks.head? = some (some stack)) :
    createVPCAndRole stackName cf (.ok templateBody) polls log =
      (match createVPCAndRole.readOutputs stack.Outputs (none, "", "") with
        | .error p => .error (.panic p)
        | .ok values => .ok values, log2) := by
  simp only [createVPCAndRole, hc, ha, hs]
  split <;> rfl

/-- A run of `createVPCAndRole` against the sample client: the stack is complete at the second
poll, and the helper returns the subnets and the two roles after one `CreateStack` and two
`DescribeStacks` calls. -/
theorem createVPCAndRole_sample_run :
    createVPCAndRole "it-uc" sampleCloudFormation (.ok "Resources:") 40 [] =
      (.ok (some ["subnet-1", "subnet-2"], "arn:cluster", "arn:node"),
        [CfnCall.createStack
          { StackName := some "it-uc"
            TemplateBody := some "Resources:"
            Capabilities := some [some "CAPABILITY_NAMED_IAM"] },
         CfnCall.describeStacks { StackName := some "it-uc" },
         CfnCall.describeStacks { StackName := some "it-uc" }]) := by
  rfl

/-! ## The reconciler -/

/-- A name that a resource set gives a spec is one of its names. -/
theorem ResourceSet.mem_names_of_get {σ : Type} (s : ResourceSet σ) (n : String) (v : σ)
    (h : s.get n = some v) : n ∈ s.names := by
  unfold ResourceSet.get at h
  cases hf : List.find? (fun e => decide (e.1 = n)) s with
  | none => simp [hf] at h
  | some e =>
    have hmem := List.mem_of_find?_eq_some hf
    have hp := List.find?_some hf
    simp only [decide_eq_true_eq] at hp
    exact List.mem_map.mpr ⟨e, hmem, hp⟩

/-- C7: in the Plan computed from a desired and an observed resource set, no resource name
appears in two of the actions Create, Update and Delete. -/
theorem Plan_actions_disjoint {σ : Type} (diff : σ → σ → Bool)
    (desired observed : ResourceSet σ) (n : String) :
    ¬ (n ∈ (Reconciler.Plan diff desired observed).toCreate ∧
        n ∈ (Reconciler.Plan diff desired observed).toUpdate) ∧
    ¬ (n ∈ (Reconciler.Plan diff desired observed).toCreate ∧
        n ∈ (Reconciler.Plan diff desired observed).toDelete) ∧
    ¬ (n ∈ (Reconciler.Plan diff desired observed).toUpdate ∧
        n ∈ (Reconciler.Plan diff desired observed).toDelete) := by
  have hupd : n ∈ (Reconciler.Plan diff desired observed).toUpdate →
      n ∈ desired.names ∧ n ∈ observed.names := by
    intro h
    simp only [Reconciler.Plan, List.mem_filter] at h
    obtain ⟨hd, hm⟩ := h
    refine ⟨hd, ?_⟩
    cases hdg : desired.get n with
    | none => simp [hdg] at hm
    | some d =>
      cases hog : observed.get n with
      | none => simp [hdg, hog] at hm
      | some o => exact ResourceSet.mem_names_of_get observed n o hog
  have hcre : n ∈ (Reconciler.Plan diff desired observed).toCreate →
      n ∈ desired.names ∧ n ∉ observed.names := by
    intro h
    simpa [Reconciler.Plan, List.mem_filter] using h
  have hdel : n ∈ (Reconciler.Plan diff desired observed).toDelete →
      n ∈ observed.names ∧ n ∉ desired.names := by
    intro h
    simpa [Reconciler.Plan, List.mem_filter] using h
  refine ⟨?_, ?_, ?_⟩
  · rintro ⟨hc, hu⟩
    exact (hcre hc).2 (hupd hu).2
  · rintro ⟨hc, hd⟩
    exact (hdel hd).2 (hcre hc).1
  · rintro ⟨hu, hd⟩
    exact (hdel hd).2 (hupd hu).1

/-- The Plan of the second scenario of the design document: the desired set has `ng-1`, the
observed set has a drifted `ng-1` and `ng-2`; the Plan updates `ng-1` and deletes `ng-2`. -/
theorem Plan_scenario_B :
    Reconciler.Plan (fun d o => decide (d ≠ o)) [("ng-1", 3)] [("ng-1", 2), ("ng-2", 1)] =
      { toCreate := [], toUpdate := ["ng-1"], toDelete := ["ng-2"] } := by
  decide

end Eksctl
